import Mathlib

/-!
Verification of the pystarport cluster bootstrap engine (`pystarport/cluster.py`
and `pystarport/utils.py`) against its natural-language specification.

Python values are embedded shallowly:
* TOML/JSON/YAML documents become the inductive type `Val` (objects are
  association lists in insertion order, matching Python `dict` semantics);
* Python strings that are split and joined become `List Char`;
* machine integers become `Nat`/`Int` (no overflow is possible in the modelled
  code paths: ports and timestamps are small);
* fallible code returns `Except`.

External collaborators (the chain binary, `hashlib.sha256`, `base64.b64decode`,
the `durations` parser, the `ports` module which is not part of the sources
under verification) enter as explicit function parameters or as
already-resolved values, exactly at their interface boundary.
-/

namespace Pystarport

/-- A JSON/TOML/YAML-shaped document value.  Objects keep their entries in
insertion order, as Python `dict`s do. -/
inductive Val where
  | vnull : Val
  | vbool : Bool → Val
  | vint : Int → Val
  | vstr : String → Val
  | varr : List Val → Val
  | vobj : List (String × Val) → Val
deriving Repr

/-- Key lookup in an object's entry list (first match, like Python `dict`s,
which cannot hold duplicate keys). -/
def lookupKey (kvs : List (String × Val)) (k : String) : Option Val :=
  match kvs.find? (fun kv => kv.1 == k) with
  | some kv => some kv.2
  | none => none

/-- Lookup on a `Val`: `none` unless the value is an object holding the key. -/
def lookupVal (v : Val) (k : String) : Option Val :=
  match v with
  | .vobj kvs => lookupKey kvs k
  | _ => none

/-- The keys of an object's entry list. -/
def keysOf (kvs : List (String × Val)) : List String :=
  kvs.map Prod.fst

/-- Rewrite the value stored under key `k0` through `g`, leaving every other
entry (and the entry order) unchanged. -/
def updateWith (g : Val → Val) (k0 : String) (a : List (String × Val)) :
    List (String × Val) :=
  a.map (fun kv => if kv.1 == k0 then (kv.1, g kv.2) else kv)

mutual
/-- Modelled from the spec: `jsonmerge.merge` (the library itself is an
external dependency, not among the sources): "for each key present in
overlay, if both base and overlay values are mapping-typed, merge
recursively; otherwise overlay value replaces base value entirely (including
full replacement of sequence-typed values, not element-wise merge)". -/
def mergeVal : Val → Val → Val
  | .vobj a, .vobj b => .vobj (mergeList a b)
  | _, b => b
termination_by _ b => sizeOf b

/-- Modelled from the spec: the object case of `jsonmerge.merge` — start from
the base entries and fold the overlay entries over them, each overlay entry
either merging into the entry with the same key or being appended.  Entry
order matches Python `dict` insertion order: base keys first, fresh overlay
keys appended. -/
def mergeList (a : List (String × Val)) : List (String × Val) → List (String × Val)
  | [] => a
  | (k, v) :: rest =>
      mergeList
        (match lookupKey a k with
         | some _ => updateWith (fun x => mergeVal x v) k a
         | none => a ++ [(k, v)])
        rest
termination_by b => sizeOf b
end

/-- Python `dict` assignment `d[k] = v`: update the entry in place if the key
exists, else append. -/
def setKeyVal (d : List (String × Val)) (k : String) (v : Val) : List (String × Val) :=
  match lookupKey d k with
  | some _ => updateWith (fun _ => v) k d
  | none => d ++ [(k, v)]

/-- `patch_toml_doc` (cluster.py): for each patch entry, recurse through
`doc.setdefault(k, {})` when the patch value is a mapping, else assign
`doc[k] = v`.  When the recursion reaches a non-mapping `doc`, a non-empty
patch raises (`AttributeError` from `setdefault` or `TypeError` from item
assignment), which the embedding reports as `Except.error`. -/
def patchTomlDoc (doc : Val) (patch : List (String × Val)) : Except Unit Val :=
  match patch with
  | [] => .ok doc
  | (k, v) :: rest =>
    match v with
    | .vobj p =>
      match doc with
      | .vobj dkvs =>
        match patchTomlDoc ((lookupKey dkvs k).getD (.vobj [])) p with
        | .error e => .error e
        | .ok cur => patchTomlDoc (.vobj (setKeyVal dkvs k cur)) rest
      | _ => .error ()
    | _ =>
      match doc with
      | .vobj dkvs => patchTomlDoc (.vobj (setKeyVal dkvs k v)) rest
      | _ => .error ()
termination_by sizeOf patch

/-- The per-key result the spec's merge contract prescribes: recursive merge
when both sides are mapping-typed, otherwise the overlay value. -/
def mergeAt (va? : Option Val) (vb : Val) : Val :=
  match va?, vb with
  | some (.vobj ao), .vobj bo => .vobj (mergeList ao bo)
  | _, _ => vb

theorem lookupKey_nil (k : String) : lookupKey [] k = none := rfl

theorem lookupKey_cons (k0 : String) (v : Val) (rest : List (String × Val)) (k : String) :
    lookupKey ((k0, v) :: rest) k = if k0 = k then some v else lookupKey rest k := by
  by_cases h : k0 = k <;> simp [lookupKey, List.find?_cons, h]

theorem lookupKey_updateWith (g : Val → Val) (k0 k : String) (a : List (String × Val)) :
    lookupKey (updateWith g k0 a) k
      = if k0 = k then (lookupKey a k).map g else lookupKey a k := by
  induction a with
  | nil => by_cases h : k0 = k <;> simp [updateWith, lookupKey_nil, h]
  | cons kv rest ih =>
    obtain ⟨k1, v1⟩ := kv
    rw [show updateWith g k0 ((k1, v1) :: rest)
          = (if (k1 == k0) = true then (k1, g v1) else (k1, v1)) :: updateWith g k0 rest
        from rfl]
    by_cases h1 : k1 = k0 <;> by_cases h2 : k1 = k
    · subst h1; subst h2
      simp [lookupKey_cons]
    · subst h1
      simp [lookupKey_cons, h2, ih]
    · subst h2
      have hne : ¬k0 = k1 := fun hh => h1 hh.symm
      simp [lookupKey_cons, h1, hne]
    · simp [lookupKey_cons, h1, h2, ih]

theorem lookupKey_append_single (a : List (String × Val)) (k0 : String) (v : Val) (k : String) :
    lookupKey (a ++ [(k0, v)]) k
      = match lookupKey a k with
        | some w => some w
        | none => if k0 = k then some v else none := by
  induction a with
  | nil => simp [lookupKey_nil, lookupKey_cons]
  | cons kv rest ih =>
    obtain ⟨k1, v1⟩ := kv
    by_cases h : k1 = k <;> simp [lookupKey_cons, h, ih]

theorem lookupKey_eq_none_iff (a : List (String × Val)) (k : String) :
    lookupKey a k = none ↔ ∀ kv ∈ a, kv.1 ≠ k := by
  induction a with
  | nil => simp [lookupKey_nil]
  | cons kv rest ih =>
    obtain ⟨k1, v1⟩ := kv
    by_cases h : k1 = k <;> simp [lookupKey_cons, h, ih]

theorem mergeList_nil_right (a : List (String × Val)) : mergeList a [] = a := by
  simp [mergeList]

/-- Keys absent from the overlay are untouched by the merge. -/
theorem mergeList_frame (b : List (String × Val)) :
    ∀ (a : List (String × Val)) (k : String), (∀ kv ∈ b, kv.1 ≠ k) →
      lookupKey (mergeList a b) k = lookupKey a k := by
  induction b with
  | nil => intro a k _; simp [mergeList_nil_right]
  | cons kv rest ih =>
    intro a k h
    obtain ⟨k', v'⟩ := kv
    have hk' : k' ≠ k := h (k', v') (by simp)
    have hrest : ∀ kv ∈ rest, kv.1 ≠ k := fun kv hkv => h kv (by simp [hkv])
    cases hak : lookupKey a k' with
    | some va =>
      rw [show mergeList a ((k', v') :: rest)
            = mergeList (updateWith (fun x => mergeVal x v') k' a) rest
          by simp [mergeList, hak]]
      rw [ih _ k hrest, lookupKey_updateWith, if_neg hk']
    | none =>
      rw [show mergeList a ((k', v') :: rest) = mergeList (a ++ [(k', v')]) rest
          by simp [mergeList, hak]]
      rw [ih _ k hrest, lookupKey_append_single]
      cases lookupKey a k with
      | some w => rfl
      | none => simp [hk']

/-- The spec's per-key merge contract, proved for the modelled merge: for a key
present in the overlay, the merged value is the recursive merge when both
sides are mapping-typed and the overlay value otherwise. -/
theorem mergeList_key (b : List (String × Val)) :
    ∀ (a : List (String × Val)) (k : String) (vb : Val),
      (keysOf b).Nodup → lookupKey b k = some vb →
      lookupKey (mergeList a b) k = some (mergeAt (lookupKey a k) vb) := by
  induction b with
  | nil => intro a k vb _ hb; simp [lookupKey_nil] at hb
  | cons kv rest ih =>
    intro a k vb hnd hb
    obtain ⟨k', v'⟩ := kv
    have hnd' : k' ∉ keysOf rest ∧ (keysOf rest).Nodup := by
      simpa [keysOf] using hnd
    by_cases hkk : k' = k
    · subst hkk
      rw [lookupKey_cons, if_pos rfl] at hb
      injection hb with hb; subst hb
      have hrest : ∀ kv ∈ rest, kv.1 ≠ k' := by
        intro kv hkv heq
        exact hnd'.1 (by simpa [keysOf, heq] using List.mem_map_of_mem Prod.fst hkv)
      cases hak : lookupKey a k' with
      | some va =>
        rw [show mergeList a ((k', v') :: rest)
              = mergeList (updateWith (fun x => mergeVal x v') k' a) rest
            by simp [mergeList, hak]]
        rw [mergeList_frame rest _ _ hrest, lookupKey_updateWith, if_pos rfl, hak]
        cases va <;> cases v' <;> simp [mergeAt, mergeVal]
      | none =>
        rw [show mergeList a ((k', v') :: rest) = mergeList (a ++ [(k', v')]) rest
            by simp [mergeList, hak]]
        rw [mergeList_frame rest _ _ hrest, lookupKey_append_single, hak]
        cases v' <;> simp [mergeAt]
    · rw [lookupKey_cons, if_neg hkk] at hb
      have step : ∀ a' : List (String × Val), lookupKey a' k = lookupKey a k →
          lookupKey (mergeList a' rest) k = some (mergeAt (lookupKey a k) vb) := by
        intro a' ha'
        rw [ih a' k vb hnd'.2 hb, ha']
      cases hak : lookupKey a k' with
      | some va =>
        rw [show mergeList a ((k', v') :: rest)
              = mergeList (updateWith (fun x => mergeVal x v') k' a) rest
            by simp [mergeList, hak]]
        exact step _ (by rw [lookupKey_updateWith, if_neg hkk])
      | none =>
        rw [show mergeList a ((k', v') :: rest) = mergeList (a ++ [(k', v')]) rest
            by simp [mergeList, hak]]
        refine step _ ?_
        rw [lookupKey_append_single]
        cases lookupKey a k with
        | some w => rfl
        | none => simp [hkk]

/-- Merging disjoint objects concatenates their entries. -/
theorem mergeList_disjoint (b : List (String × Val)) :
    ∀ a : List (String × Val), (∀ kv ∈ b, kv.1 ∉ keysOf a) → (keysOf b).Nodup →
      mergeList a b = a ++ b := by
  induction b with
  | nil => intro a _ _; simp [mergeList_nil_right]
  | cons kv rest ih =>
    intro a hdisj hnd
    obtain ⟨k, v⟩ := kv
    have hnd' : k ∉ keysOf rest ∧ (keysOf rest).Nodup := by simpa [keysOf] using hnd
    have hak : lookupKey a k = none := by
      rw [lookupKey_eq_none_iff]
      intro kv hkv heq
      have hmem : kv.1 ∈ keysOf a := List.mem_map_of_mem Prod.fst hkv
      exact hdisj (k, v) (by simp) (heq ▸ hmem)
    rw [show mergeList a ((k, v) :: rest) = mergeList (a ++ [(k, v)]) rest
        by simp [mergeList, hak]]
    rw [ih (a ++ [(k, v)])]
    · simp
    · intro kv hkv
      simp only [keysOf, List.map_append, List.mem_append] at *
      rintro (h | h)
      · exact hdisj kv (by simp [hkv]) (by simpa [keysOf] using h)
      · simp only [List.map_cons, List.map_nil, List.mem_cons] at h
        rcases h with h | h
        · exact hnd'.1 (h ▸ List.mem_map_of_mem Prod.fst hkv)
        · simp at h
    · exact hnd'.2

theorem mergeList_nil_left (b : List (String × Val)) (hnd : (keysOf b).Nodup) :
    mergeList [] b = b := by
  simpa using mergeList_disjoint b [] (by simp [keysOf]) hnd

theorem setKeyVal_lookup_self (d : List (String × Val)) (k : String) (v : Val) :
    lookupKey (setKeyVal d k v) k = some v := by
  cases hdk : lookupKey d k with
  | some w =>
    simp only [setKeyVal, hdk]
    rw [lookupKey_updateWith, if_pos rfl, hdk]; rfl
  | none =>
    simp only [setKeyVal, hdk]
    rw [lookupKey_append_single, hdk]; simp

theorem setKeyVal_lookup_ne (d : List (String × Val)) (k0 k : String) (v : Val)
    (h : k0 ≠ k) : lookupKey (setKeyVal d k0 v) k = lookupKey d k := by
  cases hdk : lookupKey d k0 with
  | some w =>
    simp only [setKeyVal, hdk]
    rw [lookupKey_updateWith, if_neg h]
  | none =>
    simp only [setKeyVal, hdk]
    rw [lookupKey_append_single]
    cases lookupKey d k with
    | some w => rfl
    | none => simp [h]

theorem mergeAt_none (vb : Val) : mergeAt none vb = vb := by
  cases vb <;> rfl

theorem updateWith_not_mem (g : Val → Val) (k : String) (a : List (String × Val))
    (h : k ∉ keysOf a) : updateWith g k a = a := by
  induction a with
  | nil => rfl
  | cons kv rest ih =>
    obtain ⟨k1, v1⟩ := kv
    have h1 : ¬k1 = k := by
      intro hh; exact h (by simp [keysOf, hh])
    have hrest : k ∉ keysOf rest := fun hh => h (by simp [keysOf] at hh ⊢; exact Or.inr hh)
    calc updateWith g k ((k1, v1) :: rest)
        = (if (k1 == k) = true then (k1, g v1) else (k1, v1)) :: updateWith g k rest := rfl
      _ = (k1, v1) :: rest := by rw [ih hrest]; simp [h1]

/-- Assigning back the value a key already holds leaves the object unchanged. -/
theorem setKeyVal_self (d : List (String × Val)) (k : String) (w : Val)
    (hnd : (keysOf d).Nodup) (hdk : lookupKey d k = some w) : setKeyVal d k w = d := by
  induction d with
  | nil => simp [lookupKey_nil] at hdk
  | cons kv rest ih =>
    obtain ⟨k1, v1⟩ := kv
    have hnd' : k1 ∉ keysOf rest ∧ (keysOf rest).Nodup := by simpa [keysOf] using hnd
    rw [lookupKey_cons] at hdk
    by_cases h1 : k1 = k
    · rw [if_pos h1] at hdk
      injection hdk with hdk
      subst h1
      simp only [setKeyVal, lookupKey_cons, if_pos rfl]
      calc updateWith (fun _ => w) k1 ((k1, v1) :: rest)
          = (if (k1 == k1) = true then (k1, w) else (k1, v1)) :: updateWith (fun _ => w) k1 rest := rfl
        _ = (k1, v1) :: rest := by
            rw [updateWith_not_mem _ _ _ hnd'.1]
            simp [hdk]
    · rw [if_neg h1] at hdk
      have hrec := ih hnd'.2 hdk
      simp only [setKeyVal, lookupKey_cons, if_neg h1, hdk] at hrec ⊢
      rw [show updateWith (fun _ => w) k ((k1, v1) :: rest)
            = (if (k1 == k) = true then (k1, w) else (k1, v1)) :: updateWith (fun _ => w) k rest
          from rfl, hrec]
      simp [h1]

/-- Patching an object touches no key outside the patch's own top-level keys. -/
theorem patchTomlDoc_frame (patch : List (String × Val)) :
    ∀ (d : List (String × Val)) (res : Val) (k : String),
      (∀ kv ∈ patch, kv.1 ≠ k) → patchTomlDoc (.vobj d) patch = .ok res →
      lookupVal res k = lookupKey d k := by
  induction patch with
  | nil =>
    intro d res k _ hok
    simp only [patchTomlDoc] at hok
    injection hok with hok
    subst hok
    rfl
  | cons kv rest ih =>
    intro d res k h
    obtain ⟨k', v'⟩ := kv
    have hk' : k' ≠ k := h (k', v') (by simp)
    have hrest : ∀ kv ∈ rest, kv.1 ≠ k := fun kv hkv => h kv (by simp [hkv])
    intro hok
    cases v' with
    | vobj p =>
      simp only [patchTomlDoc] at hok
      cases hin : patchTomlDoc ((lookupKey d k').getD (.vobj [])) p with
      | error e => rw [hin] at hok; simp at hok
      | ok cur =>
        rw [hin] at hok
        exact (ih _ res k hrest hok).trans (setKeyVal_lookup_ne d k' k cur hk')
    | vnull =>
      simp only [patchTomlDoc] at hok
      exact (ih _ res k hrest hok).trans (setKeyVal_lookup_ne d k' k _ hk')
    | vbool b =>
      simp only [patchTomlDoc] at hok
      exact (ih _ res k hrest hok).trans (setKeyVal_lookup_ne d k' k _ hk')
    | vint n =>
      simp only [patchTomlDoc] at hok
      exact (ih _ res k hrest hok).trans (setKeyVal_lookup_ne d k' k _ hk')
    | vstr s =>
      simp only [patchTomlDoc] at hok
      exact (ih _ res k hrest hok).trans (setKeyVal_lookup_ne d k' k _ hk')
    | varr l =>
      simp only [patchTomlDoc] at hok
      exact (ih _ res k hrest hok).trans (setKeyVal_lookup_ne d k' k _ hk')

/-- For a non-mapping patch value, `patch_toml_doc` does apply the spec's
replacement rule: the key ends up holding exactly the patch value. -/
theorem patchTomlDoc_replaces (patch : List (String × Val)) :
    ∀ (d : List (String × Val)) (res : Val) (k : String) (v : Val),
      (keysOf patch).Nodup → (k, v) ∈ patch → (∀ p, v ≠ .vobj p) →
      patchTomlDoc (.vobj d) patch = .ok res →
      lookupVal res k = some v := by
  induction patch with
  | nil => intro d res k v _ hmem; simp at hmem
  | cons kv rest ih =>
    intro d res k v hnd hmem hnobj hok
    obtain ⟨k', v'⟩ := kv
    have hnd' : k' ∉ keysOf rest ∧ (keysOf rest).Nodup := by simpa [keysOf] using hnd
    rcases List.mem_cons.mp hmem with heq | hmem'
    · have hk : k = k' := congrArg Prod.fst heq
      have hv : v = v' := congrArg Prod.snd heq
      subst hv; subst hk
      have hkrest : ∀ kv ∈ rest, kv.1 ≠ k := by
        intro kv hkv hh
        exact hnd'.1 (hh ▸ List.mem_map_of_mem Prod.fst hkv)
      cases hvv : v with
      | vobj p => exact absurd hvv (hnobj p)
      | vnull =>
        subst hvv
        simp only [patchTomlDoc] at hok
        rw [patchTomlDoc_frame rest _ res k hkrest hok, setKeyVal_lookup_self]
      | vbool b =>
        subst hvv
        simp only [patchTomlDoc] at hok
        rw [patchTomlDoc_frame rest _ res k hkrest hok, setKeyVal_lookup_self]
      | vint n =>
        subst hvv
        simp only [patchTomlDoc] at hok
        rw [patchTomlDoc_frame rest _ res k hkrest hok, setKeyVal_lookup_self]
      | vstr s =>
        subst hvv
        simp only [patchTomlDoc] at hok
        rw [patchTomlDoc_frame rest _ res k hkrest hok, setKeyVal_lookup_self]
      | varr l =>
        subst hvv
        simp only [patchTomlDoc] at hok
        rw [patchTomlDoc_frame rest _ res k hkrest hok, setKeyVal_lookup_self]
    · cases v' with
      | vobj p =>
        simp only [patchTomlDoc] at hok
        cases hin : patchTomlDoc ((lookupKey d k').getD (.vobj [])) p with
        | error e => rw [hin] at hok; simp at hok
        | ok cur =>
          rw [hin] at hok
          exact ih _ res k v hnd'.2 hmem' hnobj hok
      | vnull =>
        simp only [patchTomlDoc] at hok
        exact ih _ res k v hnd'.2 hmem' hnobj hok
      | vbool b =>
        simp only [patchTomlDoc] at hok
        exact ih _ res k v hnd'.2 hmem' hnobj hok
      | vint n =>
        simp only [patchTomlDoc] at hok
        exact ih _ res k v hnd'.2 hmem' hnobj hok
      | vstr s =>
        simp only [patchTomlDoc] at hok
        exact ih _ res k v hnd'.2 hmem' hnobj hok
      | varr l =>
        simp only [patchTomlDoc] at hok
        exact ih _ res k v hnd'.2 hmem' hnobj hok

/-- A non-empty patch applied to a non-mapping document always raises. -/
theorem patchTomlDoc_scalar_err (w : Val) (hw : ∀ q, w ≠ .vobj q)
    (k0 : String) (v0 : Val) (rest : List (String × Val)) :
    patchTomlDoc w ((k0, v0) :: rest) = .error () := by
  cases v0 <;> cases w <;> first
    | exact absurd rfl (hw _)
    | simp [patchTomlDoc]

/-- C2 counterexample: the claim asserts `patch_toml_doc` applies the same
replacement rule as `merge` (an overlay value replaces the base value
entirely whenever the two are not both mapping-typed).  At base
`{"a": 5}` and overlay `{"a": {}}` the merge replaces `5` by the empty
mapping, but `patch_toml_doc` recurses through `setdefault` and leaves
`5` in place, so the two disagree. -/
theorem c2_counterexample :
    patchTomlDoc (.vobj [("a", .vint 5)]) [("a", .vobj [])]
        = .ok (.vobj [("a", .vint 5)])
    ∧ mergeVal (.vobj [("a", .vint 5)]) (.vobj [("a", .vobj [])])
        = .vobj [("a", .vobj [])]
    ∧ lookupVal (.vobj [("a", .vint 5)]) "a" = some (.vint 5)
    ∧ lookupVal (.vobj [("a", .vobj [])]) "a" = some (.vobj [])
    ∧ Val.vint 5 ≠ Val.vobj [] := by
  refine ⟨?_, ?_, ?_, ?_, ?_⟩
  · simp [patchTomlDoc, lookupKey, setKeyVal, updateWith]
  · simp [mergeVal, mergeList, lookupKey, updateWith]
  · simp [lookupVal, lookupKey]
  · simp [lookupVal, lookupKey]
  · intro h
    exact Val.noConfusion h

/-- C2 (amended): for every key present in the overlay, the merged value is
the recursive merge when both sides are mapping-typed and the overlay value
otherwise (sequences replaced wholesale); `merge(A, {}) = A` and
`merge({}, B) = B`.  `patch_toml_doc` applies the same replacement rule for
non-mapping patch values only; for a mapping-typed patch value it always
recurses, even when the base value is not a mapping: an empty-mapping patch
value leaves a non-mapping base value unchanged, and a non-empty mapping
patch value over a non-mapping base value raises instead of replacing. -/
theorem c2_merge_precedence_amended :
    (∀ (a b : List (String × Val)) (k : String) (vb : Val),
        (keysOf b).Nodup → lookupKey b k = some vb →
        lookupKey (mergeList a b) k = some (mergeAt (lookupKey a k) vb))
    ∧ (∀ a : List (String × Val), mergeVal (.vobj a) (.vobj []) = .vobj a)
    ∧ (∀ b : List (String × Val), (keysOf b).Nodup →
        mergeVal (.vobj []) (.vobj b) = .vobj b)
    ∧ (∀ (d patch : List (String × Val)) (res : Val) (k : String) (v : Val),
        (keysOf patch).Nodup → (k, v) ∈ patch → (∀ p, v ≠ .vobj p) →
        patchTomlDoc (.vobj d) patch = .ok res → lookupVal res k = some v)
    ∧ (∀ (d : List (String × Val)) (k : String) (w : Val),
        (keysOf d).Nodup → lookupKey d k = some w → (∀ p, w ≠ .vobj p) →
        patchTomlDoc (.vobj d) [(k, .vobj [])] = .ok (.vobj d))
    ∧ (∀ (d : List (String × Val)) (k : String) (w : Val)
        (k0 : String) (v0 : Val) (ps : List (String × Val)),
        lookupKey d k = some w → (∀ q, w ≠ .vobj q) →
        patchTomlDoc (.vobj d) [(k, .vobj ((k0, v0) :: ps))] = .error ()) := by
  refine ⟨?_, ?_, ?_, ?_, ?_, ?_⟩
  · intro a b k vb hnd hb
    exact mergeList_key b a k vb hnd hb
  · intro a
    simp [mergeVal, mergeList_nil_right]
  · intro b hnd
    simp [mergeVal, mergeList_nil_left b hnd]
  · intro d patch res k v hnd hmem hnobj hok
    exact patchTomlDoc_replaces patch d res k v hnd hmem hnobj hok
  · intro d k w hnd hdk hnobj
    simp only [patchTomlDoc, hdk, Option.getD_some]
    rw [setKeyVal_self d k w hnd hdk]
  · intro d k w k0 v0 ps hdk hnobj
    simp only [patchTomlDoc, hdk, Option.getD_some]
    rw [patchTomlDoc_scalar_err w hnobj k0 v0 ps]

/-- C2 witness: the amended statement evaluated at concrete documents. -/
theorem c2_merge_precedence_amended_witness :
    lookupKey (mergeList [("x", .vint 1), ("y", .vint 7)] [("x", .varr [.vint 2])]) "x"
        = some (mergeAt (lookupKey [("x", .vint 1), ("y", .vint 7)] "x") (.varr [.vint 2]))
    ∧ mergeVal (.vobj [("x", .vint 1)]) (.vobj []) = .vobj [("x", .vint 1)]
    ∧ mergeVal (.vobj []) (.vobj [("y", .vint 2)]) = .vobj [("y", .vint 2)]
    ∧ lookupVal (.vobj [("a", .vint 2)]) "a" = some (.vint 2)
    ∧ patchTomlDoc (.vobj [("b", .vint 3)]) [("b", .vobj [])] = .ok (.vobj [("b", .vint 3)])
    ∧ patchTomlDoc (.vobj [("c", .vint 4)]) [("c", .vobj [("z", .vint 0)])] = .error () := by
  refine ⟨?_, ?_, ?_, ?_, ?_, ?_⟩
  · exact c2_merge_precedence_amended.1 [("x", .vint 1), ("y", .vint 7)]
      [("x", .varr [.vint 2])] "x" (.varr [.vint 2])
      (by simp [keysOf]) (by simp [lookupKey_cons])
  · exact c2_merge_precedence_amended.2.1 [("x", .vint 1)]
  · exact c2_merge_precedence_amended.2.2.1 [("y", .vint 2)] (by simp [keysOf])
  · exact c2_merge_precedence_amended.2.2.2.1 [("a", .vint 1)] [("a", .vint 2)]
      (.vobj [("a", .vint 2)]) "a" (.vint 2) (by simp [keysOf]) (by simp)
      (fun p h => Val.noConfusion h)
      (by simp [patchTomlDoc, setKeyVal, lookupKey, updateWith])
  · exact c2_merge_precedence_amended.2.2.2.2.1 [("b", .vint 3)] "b" (.vint 3)
      (by simp [keysOf]) (by simp [lookupKey_cons]) (fun p h => Val.noConfusion h)
  · exact c2_merge_precedence_amended.2.2.2.2.2 [("c", .vint 4)] "c" (.vint 4)
      "z" (.vint 0) [] (by simp [lookupKey_cons]) (fun q h => Val.noConfusion h)

/-! ### Peer topology (cluster.py `init_devnet` lines 1049-1073, `try_remove_peer`)

Python strings that get split on `','` and re-joined are embedded as
`List Char`; `splitOnChar` and `joinChar` reproduce `str.split(sep)` /
`sep.join(items)` for a one-character separator, and `List.erase` reproduces
`list.remove` (first occurrence, no-op captured by the caller's
`try`/`except ValueError`). -/

/-- Python `s.split(sep)` for a single-character separator: empty pieces are
kept and the empty string splits to one empty piece. -/
def splitOnChar (sep : Char) : List Char → List (List Char)
  | [] => [[]]
  | c :: rest =>
    if c = sep then [] :: splitOnChar sep rest
    else
      match splitOnChar sep rest with
      | [] => [[c]]
      | p :: ps => (c :: p) :: ps

/-- Python `sep.join(items)` for a single-character separator. -/
def joinChar (sep : Char) : List (List Char) → List Char
  | [] => []
  | [x] => x
  | x :: y :: ys => x ++ sep :: joinChar sep (y :: ys)

/-- `try_remove_peer` (cluster.py lines 1459-1467): split on commas, remove
the first occurrence of `peer` (returning the input unchanged when absent —
the `ValueError` branch), and re-join. -/
def tryRemovePeer (peers peer : List Char) : List Char :=
  let items := splitOnChar ',' peers
  if peer ∈ items then joinChar ',' (items.erase peer) else peers

/-- A peer address `tcp://<node_id>@<hostname>:<p2p_port>` as formatted by
`init_devnet`; the node id is produced by the external chain binary and the
p2p port by the external `ports` module, so both arrive as data. -/
def mkPeerAddr (nodeId hostname : String) (p2pPort : Nat) : List Char :=
  ("tcp://" ++ nodeId ++ "@" ++ hostname ++ ":" ++ toString p2pPort).toList

/-- The peers string `init_devnet` starts from: the configured `peers` value
if present and non-empty (Python `config.get("peers") or ...` treats an empty
string as absent), else the comma-join of every node's own address. -/
def peersString (cfgPeers : Option (List Char)) (addrs : List (List Char)) : List Char :=
  match cfgPeers with
  | some p => if p.isEmpty then joinChar ',' addrs else p
  | none => joinChar ',' addrs

/-- The `persistent_peers` value written into node `i`'s config.toml:
`try_remove_peer(peers, self_peer_i)`. -/
def writtenPeers (cfgPeers : Option (List Char)) (addrs : List (List Char))
    (i : Fin addrs.length) : List Char :=
  tryRemovePeer (peersString cfgPeers addrs) (addrs.get i)

/-- The entries of a comma-separated peer list, ignoring empty pieces (an
empty string denotes no peers). -/
def peerEntries (s : List Char) : List (List Char) :=
  (splitOnChar ',' s).filter (fun x => !x.isEmpty)

theorem splitOnChar_sep_free (sep : Char) (s : List Char) :
    ∀ x ∈ splitOnChar sep s, sep ∉ x := by
  induction s with
  | nil =>
    intro x hx
    simp [splitOnChar] at hx
    simp [hx]
  | cons c rest ih =>
    intro x hx
    by_cases hc : c = sep
    · rw [splitOnChar, if_pos hc] at hx
      rcases List.mem_cons.mp hx with h | h
      · simp [h]
      · exact ih x h
    · rw [splitOnChar, if_neg hc] at hx
      cases hsp : splitOnChar sep rest with
      | nil =>
        rw [hsp] at hx
        simp at hx
        subst hx
        intro hmem
        simp at hmem
        exact hc hmem.symm
      | cons p ps =>
        rw [hsp] at hx
        rcases List.mem_cons.mp hx with h | h
        · subst h
          intro hmem
          rcases List.mem_cons.mp hmem with h | h
          · exact hc h.symm
          · exact ih p (by simp [hsp]) h
        · exact ih x (by simp [hsp, h])

theorem splitOnChar_single (sep : Char) (x : List Char) (hx : sep ∉ x) :
    splitOnChar sep x = [x] := by
  induction x with
  | nil => rfl
  | cons c rest ih =>
    have hc : ¬c = sep := fun hh => hx (by simp [hh])
    rw [splitOnChar, if_neg hc, ih (fun hh => hx (by simp [hh]))]

theorem splitOnChar_join_cons (sep : Char) (x : List Char) (t : List Char)
    (hx : sep ∉ x) :
    splitOnChar sep (x ++ sep :: t) = x :: splitOnChar sep t := by
  induction x with
  | nil => simp [splitOnChar]
  | cons c rest ih =>
    have hc : ¬c = sep := fun hh => hx (by simp [hh])
    rw [List.cons_append, splitOnChar, if_neg hc,
      ih (fun hh => hx (by simp [hh]))]

/-- `split(join(l))` round-trips whenever `l` is non-empty and its entries
are separator-free. -/
theorem splitOnChar_joinChar (sep : Char) (l : List (List Char))
    (hne : l ≠ []) (hfree : ∀ x ∈ l, sep ∉ x) :
    splitOnChar sep (joinChar sep l) = l := by
  induction l with
  | nil => exact absurd rfl hne
  | cons x xs ih =>
    cases xs with
    | nil =>
      rw [joinChar, splitOnChar_single sep x (hfree x (by simp))]
    | cons y ys =>
      rw [joinChar]
      rw [splitOnChar_join_cons sep x _ (hfree x (by simp))]
      rw [ih (List.cons_ne_nil y ys) (fun z hz => hfree z (by simp [hz]))]

theorem isEmpty_eq_false_of_ne_nil {x : List Char} (h : x ≠ []) :
    x.isEmpty = false := by
  cases x with
  | nil => exact absurd rfl h
  | cons c cs => rfl

theorem peerEntries_joinChar (l : List (List Char))
    (hfree : ∀ x ∈ l, ',' ∉ x) :
    peerEntries (joinChar ',' l) = l.filter (fun x => !x.isEmpty) := by
  cases l with
  | nil => rfl
  | cons x xs =>
    unfold peerEntries
    rw [splitOnChar_joinChar ',' (x :: xs) (List.cons_ne_nil x xs) hfree]

/-- C1 counterexample: the claim says the written `persistent_peers` value
never contains the node's own peer address.  With a configured explicit peer
string that lists the node's own address twice, `try_remove_peer` removes
only the first occurrence, so the written value still contains it. -/
theorem c1_counterexample :
    ("tcp://a@h:1").toList ∈ peerEntries
      (writtenPeers (some ("tcp://a@h:1,tcp://a@h:1").toList)
        [("tcp://a@h:1").toList] ⟨0, Nat.zero_lt_one⟩)
    ∧ [("tcp://a@h:1").toList].get (⟨0, Nat.zero_lt_one⟩ : Fin 1)
        = ("tcp://a@h:1").toList := by
  exact ⟨by decide, rfl⟩

/-- C1 (amended): write `self i` for node `i`'s derived peer address.  When
the peer list is auto-derived from pairwise-distinct, non-empty, comma-free
node addresses, the written peer list for node `i` is exactly the address
list with `self i` removed — `N - 1` entries, never containing `self i`.
When an explicit fixed peer string is configured, the written value is that
string with the first occurrence of `self i` removed (unchanged when
absent); it therefore still contains `self i` exactly when the configured
string listed it more than once, and node `i`'s address is absent from the
written value whenever the configured string listed it at most once. -/
theorem c1_peer_self_exclusion_amended (addrs : List (List Char))
    (i : Fin addrs.length) (hnd : addrs.Nodup)
    (hfree : ∀ a ∈ addrs, ',' ∉ a) (hne : ∀ a ∈ addrs, a ≠ []) :
    (peerEntries (writtenPeers none addrs i) = addrs.erase (addrs.get i)
      ∧ (peerEntries (writtenPeers none addrs i)).length = addrs.length - 1
      ∧ addrs.get i ∉ peerEntries (writtenPeers none addrs i))
    ∧ (∀ p : List Char, ¬p.isEmpty = true →
        peerEntries (writtenPeers (some p) addrs i)
            = (peerEntries p).erase (addrs.get i)
        ∧ ((peerEntries p).count (addrs.get i) ≤ 1 →
            addrs.get i ∉ peerEntries (writtenPeers (some p) addrs i))) := by
  have hself_mem : addrs.get i ∈ addrs := List.get_mem addrs i.1 i.2
  have hsplit : splitOnChar ',' (joinChar ',' addrs) = addrs :=
    splitOnChar_joinChar ',' addrs
      (List.ne_nil_of_length_pos (Nat.lt_of_le_of_lt (Nat.zero_le _) i.isLt)) hfree
  constructor
  · have hmain : peerEntries (writtenPeers none addrs i) = addrs.erase (addrs.get i) := by
      rw [writtenPeers, peersString, tryRemovePeer]
      simp only [hsplit, if_pos hself_mem]
      rw [peerEntries_joinChar _
        (fun x hx => hfree x (List.mem_of_mem_erase hx))]
      rw [List.filter_eq_self.mpr
        (fun a ha => by
          simpa using isEmpty_eq_false_of_ne_nil (hne a (List.mem_of_mem_erase ha)))]
    refine ⟨hmain, ?_, ?_⟩
    · rw [hmain]
      exact List.length_erase_of_mem hself_mem
    · rw [hmain]
      exact hnd.not_mem_erase
  · intro p hp
    have hpeers : peersString (some p) addrs = p := by
      rw [peersString]
      simp [hp]
    have hifree : ∀ x ∈ splitOnChar ',' p, ',' ∉ x := splitOnChar_sep_free ',' p
    have hmain : peerEntries (writtenPeers (some p) addrs i)
        = (peerEntries p).erase (addrs.get i) := by
      rw [writtenPeers, hpeers, tryRemovePeer]
      by_cases hs : addrs.get i ∈ splitOnChar ',' p
      · simp only [if_pos hs]
        rw [peerEntries_joinChar _
          (fun x hx => hifree x (List.mem_of_mem_erase hx))]
        rw [peerEntries, List.erase_filter]
      · simp only [if_neg hs]
        have hnotmem : addrs.get i ∉ peerEntries p := fun hmem =>
          hs (List.mem_of_mem_filter hmem)
        exact (List.erase_of_not_mem hnotmem).symm
    refine ⟨hmain, fun hcount hmem => ?_⟩
    rw [hmain] at hmem
    have h0 : (peerEntries p).count (addrs.get i) - 1 = 0 := by omega
    have := List.count_erase_self (addrs.get i) (peerEntries p)
    rw [h0] at this
    exact (List.count_eq_zero.mp this) hmem

/-- C1 witness: the amended statement at two concrete nodes and a concrete
explicit peer string. -/
theorem c1_peer_self_exclusion_witness :
    (peerEntries (writtenPeers none
        [mkPeerAddr "n0" "127.0.0.1" 26656, mkPeerAddr "n1" "127.0.0.1" 26666]
        ⟨0, Nat.zero_lt_succ 1⟩)
      = [mkPeerAddr "n0" "127.0.0.1" 26656, mkPeerAddr "n1" "127.0.0.1" 26666].erase
          ([mkPeerAddr "n0" "127.0.0.1" 26656,
            mkPeerAddr "n1" "127.0.0.1" 26666].get ⟨0, Nat.zero_lt_succ 1⟩))
    ∧ peerEntries (writtenPeers (some ("tcp://n0@127.0.0.1:26656,x").toList)
        [mkPeerAddr "n0" "127.0.0.1" 26656, mkPeerAddr "n1" "127.0.0.1" 26666]
        ⟨0, Nat.zero_lt_succ 1⟩)
      = (peerEntries (("tcp://n0@127.0.0.1:26656,x").toList)).erase
          ([mkPeerAddr "n0" "127.0.0.1" 26656,
            mkPeerAddr "n1" "127.0.0.1" 26666].get ⟨0, Nat.zero_lt_succ 1⟩) :=
  ⟨(c1_peer_self_exclusion_amended
      [mkPeerAddr "n0" "127.0.0.1" 26656, mkPeerAddr "n1" "127.0.0.1" 26666]
      ⟨0, Nat.zero_lt_succ 1⟩ (by decide) (by decide) (by decide)).1.1,
   ((c1_peer_self_exclusion_amended
      [mkPeerAddr "n0" "127.0.0.1" 26656, mkPeerAddr "n1" "127.0.0.1" 26666]
      ⟨0, Nat.zero_lt_succ 1⟩ (by decide) (by decide) (by decide)).2
      (("tcp://n0@127.0.0.1:26656,x").toList) (by decide)).1⟩

/-! ### Validator defaults and incremental node addition
(cluster.py `process_config` lines 856-866, `ClusterCLI.create_node`
lines 181-283, `ClusterCLI.nodes_len` lines 108-112) -/

/-- A validator entry as it appears in the declarative input: the three
defaultable fields modelled; further fields do not influence the claims. -/
structure ValidatorSpecIn where
  moniker : Option String
  base_port : Option Nat
  hostname : Option String
deriving Repr, DecidableEq

/-- A validator entry of the resolved `config.json`. -/
structure ValidatorResolved where
  moniker : String
  base_port : Nat
  hostname : String
deriving Repr, DecidableEq

/-- `process_config`'s per-validator defaulting: moniker `node{i}`,
base_port `base_port + i*10`, hostname `127.0.0.1`. -/
def fillDefaults (basePort i : Nat) (v : ValidatorSpecIn) : ValidatorResolved :=
  { moniker := v.moniker.getD ("node" ++ toString i)
    base_port := v.base_port.getD (basePort + i * 10)
    hostname := v.hostname.getD "127.0.0.1" }

def processConfigFrom (basePort : Nat) : Nat → List ValidatorSpecIn → List ValidatorResolved
  | _, [] => []
  | i, v :: rest => fillDefaults basePort i v :: processConfigFrom basePort (i + 1) rest

/-- `process_config` (cluster.py lines 856-866): fill default values for every
validator, by position. -/
def processConfig (basePort : Nat) (vals : List ValidatorSpecIn) : List ValidatorResolved :=
  processConfigFrom basePort 0 vals

/-- One supervisor ini section: name and ordered option list. -/
abbrev IniSection := String × List (String × String)

/-- The section name `program:<chain_id>-node<i>`. -/
def nodeProgramName (chainId : String) (i : Nat) : String :=
  "program:" ++ chainId ++ "-node" ++ toString i

/-- The section `create_node` appends: `COMMON_PROG_OPTIONS` with
`directory`, `command`, `autostart="false"` and `stdout_logfile` overriding
and extending it, in Python `dict(...)` order. -/
def nodeProgramSection (chainId cmd : String) (i : Nat) : IniSection :=
  (nodeProgramName chainId i,
   [("autostart", "false"),
    ("autorestart", "true"),
    ("redirect_stderr", "true"),
    ("startsecs", "3"),
    ("directory", "%(here)s/node" ++ toString i),
    ("command", cmd ++ " start --home ."),
    ("stdout_logfile", "%(here)s/node" ++ toString i ++ ".log")])

/-- The cluster state `create_node` reads and writes: the resolved
`config.json` validator list, the number of existing `node{i}` directories
(`nodes_len`), and the chain's supervisor config sections. -/
structure ClusterState where
  validators : List ValidatorResolved
  dirCount : Nat
  supervisorIni : List IniSection
deriving Repr, DecidableEq

inductive CreateNodeErr where
  /-- `self.config["validators"][0]` on an empty validator list. -/
  | indexError : CreateNodeErr
  /-- `assert len(self.config["validators"]) == i` failing. -/
  | assertionError : CreateNodeErr
  /-- `configparser` refusing a duplicate section name. -/
  | duplicateSection : CreateNodeErr
deriving Repr, DecidableEq

/-- `ClusterCLI.create_node` (cluster.py lines 181-283), in source order:
`i = nodes_len()`; default `base_port` from `validators[0].base_port + i*10`
(an IndexError on an empty validator list); default moniker `node{i}`;
`assert len(validators) == i` before anything is appended or written; then
append the validator entry, create the node directory, and add exactly one
`program:<chain_id>-node<i>` section to the supervisor config.  Returns the
new node's index with the successor state. -/
def createNode (st : ClusterState) (chainId cmd : String)
    (basePort? : Option Nat) (moniker? : Option String) (hostname : String) :
    Except CreateNodeErr (Nat × ClusterState) :=
  let i := st.dirCount
  match (match basePort? with
         | some bp => Except.ok bp
         | none =>
           match st.validators with
           | [] => Except.error CreateNodeErr.indexError
           | v0 :: _ => Except.ok (v0.base_port + i * 10)) with
  | .error e => .error e
  | .ok basePort =>
    let moniker := moniker?.getD ("node" ++ toString i)
    if st.validators.length ≠ i then
      .error .assertionError
    else if nodeProgramName chainId i ∈ st.supervisorIni.map Prod.fst then
      .error .duplicateSection
    else
      .ok (i,
        { validators := st.validators ++ [⟨moniker, basePort, hostname⟩]
          dirCount := st.dirCount + 1
          supervisorIni := st.supervisorIni ++ [nodeProgramSection chainId cmd i] })

theorem processConfigFrom_get (basePort : Nat) :
    ∀ (vals : List ValidatorSpecIn) (j i : Nat) (v : ValidatorSpecIn),
      vals[i]? = some v →
      (processConfigFrom basePort j vals)[i]? = some (fillDefaults basePort (j + i) v) := by
  intro vals
  induction vals with
  | nil => intro j i v hv; simp at hv
  | cons w rest ih =>
    intro j i v hv
    cases i with
    | zero =>
      simp at hv
      subst hv
      simp [processConfigFrom]
    | succ i' =>
      simp only [List.getElem?_cons_succ] at hv
      have := ih (j + 1) i' v hv
      simpa [processConfigFrom, Nat.add_assoc, Nat.add_comm 1 i'] using this

/-- C4: a validator spec omitting `base_port` resolves to
`global_base_port + i*10`, and an incremental `create_node` on a consistent
`N`-node cluster with `base_port` unspecified assigns index `N` (the current
number of node directories, equal to the validator count) and base port
`validators[0].base_port + N*10`. -/
theorem c4_base_port_derivation :
    (∀ (basePort : Nat) (vals : List ValidatorSpecIn) (i : Nat) (v : ValidatorSpecIn),
      vals[i]? = some v → v.base_port = none →
      ∃ w, (processConfig basePort vals)[i]? = some w
        ∧ w.base_port = basePort + i * 10)
    ∧ (∀ (st : ClusterState) (chainId cmd hostname : String)
        (v0 : ValidatorResolved) (tl : List ValidatorResolved),
      st.validators = v0 :: tl → st.validators.length = st.dirCount →
      nodeProgramName chainId st.dirCount ∉ st.supervisorIni.map Prod.fst →
      ∃ st', createNode st chainId cmd none none hostname = .ok (st.dirCount, st')
        ∧ st'.validators[st.dirCount]?
            = some ⟨"node" ++ toString st.dirCount,
                v0.base_port + st.dirCount * 10, hostname⟩
        ∧ st'.validators.length = st.dirCount + 1) := by
  constructor
  · intro basePort vals i v hv hbp
    refine ⟨fillDefaults basePort i v, ?_, ?_⟩
    · simpa using processConfigFrom_get basePort vals 0 i v hv
    · simp [fillDefaults, hbp]
  · intro st chainId cmd hostname v0 tl hv hlen hfresh
    have hlen' : (v0 :: tl).length = st.dirCount := by rw [← hv]; exact hlen
    refine ⟨{ validators := st.validators
                ++ [⟨"node" ++ toString st.dirCount,
                    v0.base_port + st.dirCount * 10, hostname⟩]
              dirCount := st.dirCount + 1
              supervisorIni := st.supervisorIni
                ++ [nodeProgramSection chainId cmd st.dirCount] }, ?_, ?_, ?_⟩
    · simp [createNode, hv, hlen', hfresh]
    · have hle : st.validators.length ≤ st.dirCount := le_of_eq hlen
      simp only [List.getElem?_append_right hle, hlen]
      simp
    · simp [hlen]

/-- C4 witness: a two-validator config with the second validator's base_port
omitted, and a `create_node` call on a consistent two-node cluster. -/
theorem c4_base_port_derivation_witness :
    (∃ w, (processConfig 26650
        [⟨none, some 26650, none⟩, ⟨none, none, none⟩])[1]? = some w
      ∧ w.base_port = 26650 + 1 * 10)
    ∧ (∃ st', createNode ⟨[⟨"node0", 26650, "127.0.0.1"⟩, ⟨"node1", 26660, "127.0.0.1"⟩], 2,
          [nodeProgramSection "chainmaind" "chain-maind" 0,
           nodeProgramSection "chainmaind" "chain-maind" 1]⟩
          "chainmaind" "chain-maind" none none "127.0.0.1" = .ok (2, st')
        ∧ st'.validators[2]? = some ⟨"node" ++ toString 2, 26650 + 2 * 10, "127.0.0.1"⟩
        ∧ st'.validators.length = 2 + 1) :=
  ⟨c4_base_port_derivation.1 26650 [⟨none, some 26650, none⟩, ⟨none, none, none⟩] 1
      ⟨none, none, none⟩ (by decide) (by decide),
   c4_base_port_derivation.2 ⟨[⟨"node0", 26650, "127.0.0.1"⟩, ⟨"node1", 26660, "127.0.0.1"⟩], 2,
      [nodeProgramSection "chainmaind" "chain-maind" 0,
       nodeProgramSection "chainmaind" "chain-maind" 1]⟩
      "chainmaind" "chain-maind" "127.0.0.1" ⟨"node0", 26650, "127.0.0.1"⟩
      [⟨"node1", 26660, "127.0.0.1"⟩] rfl (by decide) (by decide)⟩

/-- The common success tail of `create_node`, after the base port has been
resolved: the two guards, then the appended state. -/
theorem createNode_tail_spec (vals : List ValidatorResolved) (dirs : Nat)
    (ini : List IniSection) (chainId cmd hostname mk : String) (bp : Nat)
    (i : Nat) (st' : ClusterState)
    (h : (if vals.length ≠ dirs then Except.error CreateNodeErr.assertionError
          else if nodeProgramName chainId dirs ∈ ini.map Prod.fst then
            Except.error CreateNodeErr.duplicateSection
          else Except.ok (dirs,
            ({ validators := vals ++ [⟨mk, bp, hostname⟩]
               dirCount := dirs + 1
               supervisorIni := ini ++ [nodeProgramSection chainId cmd dirs] }
              : ClusterState)))
        = Except.ok (i, st')) :
    i = dirs ∧ vals.length = dirs
    ∧ nodeProgramName chainId dirs ∉ ini.map Prod.fst
    ∧ st'.supervisorIni = ini ++ [nodeProgramSection chainId cmd dirs]
    ∧ st'.dirCount = dirs + 1
    ∧ st'.validators = vals ++ [⟨mk, bp, hostname⟩] := by
  by_cases h1 : vals.length ≠ dirs
  · rw [if_pos h1] at h
    exact absurd h (by simp)
  · rw [if_neg h1] at h
    by_cases h2 : nodeProgramName chainId dirs ∈ ini.map Prod.fst
    · rw [if_pos h2] at h
      exact absurd h (by simp)
    · rw [if_neg h2] at h
      injection h with h
      have hi : dirs = i := congrArg Prod.fst h
      have hst : _ = st' := congrArg Prod.snd h
      subst hi
      subst hst
      exact ⟨rfl, Classical.byContradiction h1, h2, rfl, rfl, rfl⟩

/-- What a successful `create_node` run implies: it happened at index
`dirCount`, the assertion `len(validators) == i` held, the section name was
fresh, the supervisor config gained exactly the one new section at the end,
and the validator list gained exactly one entry at the end. -/
theorem createNode_ok_spec {st : ClusterState} {chainId cmd : String}
    {basePort? : Option Nat} {moniker? : Option String} {hostname : String}
    {i : Nat} {st' : ClusterState}
    (hok : createNode st chainId cmd basePort? moniker? hostname = .ok (i, st')) :
    i = st.dirCount ∧ st.validators.length = st.dirCount
    ∧ nodeProgramName chainId st.dirCount ∉ st.supervisorIni.map Prod.fst
    ∧ st'.supervisorIni
        = st.supervisorIni ++ [nodeProgramSection chainId cmd st.dirCount]
    ∧ st'.dirCount = st.dirCount + 1
    ∧ ∃ bp, st'.validators
        = st.validators
          ++ [⟨moniker?.getD ("node" ++ toString st.dirCount), bp, hostname⟩] := by
  obtain ⟨vals, dirs, ini⟩ := st
  cases basePort? with
  | some bp =>
    obtain ⟨ha, hb, hc, hd, he, hf⟩ :=
      createNode_tail_spec vals dirs ini chainId cmd hostname
        (moniker?.getD ("node" ++ toString dirs)) bp i st' hok
    exact ⟨ha, hb, hc, hd, he, bp, hf⟩
  | none =>
    cases vals with
    | nil => exact absurd hok (by simp [createNode])
    | cons v0 tl =>
      obtain ⟨ha, hb, hc, hd, he, hf⟩ :=
        createNode_tail_spec (v0 :: tl) dirs ini chainId cmd hostname
          (moniker?.getD ("node" ++ toString dirs)) (v0.base_port + dirs * 10) i st' hok
      exact ⟨ha, hb, hc, hd, he, v0.base_port + dirs * 10, hf⟩

/-- C9: a successful `create_node` on an `N`-node cluster appends exactly one
new section, named `program:<chain_id>-node<N>`, to the chain's supervisor
config and leaves every pre-existing section, with its options, unchanged
(the old section list is an unchanged prefix of the new one). -/
theorem c9_incremental_add_frame (st : ClusterState) (chainId cmd : String)
    (basePort? : Option Nat) (moniker? : Option String) (hostname : String)
    (i : Nat) (st' : ClusterState)
    (hok : createNode st chainId cmd basePort? moniker? hostname = .ok (i, st')) :
    st'.supervisorIni = st.supervisorIni ++ [nodeProgramSection chainId cmd i]
    ∧ i = st.validators.length
    ∧ (nodeProgramSection chainId cmd i).1 = nodeProgramName chainId i
    ∧ nodeProgramName chainId i ∉ st.supervisorIni.map Prod.fst
    ∧ ∀ s ∈ st.supervisorIni, s ∈ st'.supervisorIni := by
  obtain ⟨hi, hlen, hfresh, hini, _, _⟩ := createNode_ok_spec hok
  subst hi
  rw [← hlen] at hini hfresh ⊢
  exact ⟨hini, rfl, rfl, hfresh,
    fun s hs => by rw [hini]; exact List.mem_append_left _ hs⟩

/-- C9 witness: one concrete `create_node` success. -/
theorem c9_incremental_add_frame_witness :
    (ClusterState.mk
        [⟨"node0", 26650, "127.0.0.1"⟩, ⟨"node1", 26660, "127.0.0.1"⟩]
        2
        ([nodeProgramSection "cid" "chain-maind" 0,
          nodeProgramSection "cid" "chain-maind" 1]
          ++ [nodeProgramSection "cid" "chain-maind" 2])).supervisorIni
      = [nodeProgramSection "cid" "chain-maind" 0,
         nodeProgramSection "cid" "chain-maind" 1]
        ++ [nodeProgramSection "cid" "chain-maind" 2]
    ∧ 2 = [(⟨"node0", 26650, "127.0.0.1"⟩ : ValidatorResolved),
           ⟨"node1", 26660, "127.0.0.1"⟩].length
    ∧ (nodeProgramSection "cid" "chain-maind" 2).1 = nodeProgramName "cid" 2
    ∧ nodeProgramName "cid" 2
        ∉ [nodeProgramSection "cid" "chain-maind" 0,
           nodeProgramSection "cid" "chain-maind" 1].map Prod.fst
    ∧ ∀ s ∈ [nodeProgramSection "cid" "chain-maind" 0,
             nodeProgramSection "cid" "chain-maind" 1],
        s ∈ (ClusterState.mk
          [⟨"node0", 26650, "127.0.0.1"⟩, ⟨"node1", 26660, "127.0.0.1"⟩]
          2
          ([nodeProgramSection "cid" "chain-maind" 0,
            nodeProgramSection "cid" "chain-maind" 1]
            ++ [nodeProgramSection "cid" "chain-maind" 2])).supervisorIni :=
  c9_incremental_add_frame
    ⟨[⟨"node0", 26650, "127.0.0.1"⟩, ⟨"node1", 26660, "127.0.0.1"⟩], 2,
      [nodeProgramSection "cid" "chain-maind" 0,
       nodeProgramSection "cid" "chain-maind" 1]⟩
    "cid" "chain-maind" (some 26670) (some "node2") "127.0.0.1" 2
    ⟨[⟨"node0", 26650, "127.0.0.1"⟩, ⟨"node1", 26660, "127.0.0.1"⟩,
      ⟨"node2", 26670, "127.0.0.1"⟩], 3,
      [nodeProgramSection "cid" "chain-maind" 0,
       nodeProgramSection "cid" "chain-maind" 1]
        ++ [nodeProgramSection "cid" "chain-maind" 2]⟩
    (by rfl)

/-- C10: whenever the loaded (non-empty) validator list's length differs
from the number of existing `node<i>` directories, `create_node` fails with
the assertion error before producing any new state; and a successful
`create_node` always returns index equal to both the current validator count
and the current directory count. -/
theorem c10_sequential_append_guard :
    (∀ (st : ClusterState) (chainId cmd : String) (basePort? : Option Nat)
        (moniker? : Option String) (hostname : String),
      st.validators ≠ [] → st.validators.length ≠ st.dirCount →
      createNode st chainId cmd basePort? moniker? hostname
        = .error .assertionError)
    ∧ (∀ (st : ClusterState) (chainId cmd : String) (basePort? : Option Nat)
        (moniker? : Option String) (hostname : String) (i : Nat) (st' : ClusterState),
      createNode st chainId cmd basePort? moniker? hostname = .ok (i, st') →
      i = st.validators.length ∧ i = st.dirCount) := by
  constructor
  · intro st chainId cmd basePort? moniker? hostname hne hmis
    obtain ⟨vals, dirs, ini⟩ := st
    cases basePort? with
    | some bp =>
      show (if vals.length ≠ dirs then Except.error CreateNodeErr.assertionError
            else _) = Except.error CreateNodeErr.assertionError
      rw [if_pos hmis]
    | none =>
      cases vals with
      | nil => exact absurd rfl hne
      | cons v0 tl =>
        show (if (v0 :: tl).length ≠ dirs then Except.error CreateNodeErr.assertionError
              else _) = Except.error CreateNodeErr.assertionError
        rw [if_pos hmis]
  · intro st chainId cmd basePort? moniker? hostname i st' hok
    obtain ⟨hi, hlen, _⟩ := createNode_ok_spec hok
    subst hi
    exact ⟨hlen.symm, rfl⟩

/-- C10 witness: a mismatched state (one validator, two directories) fails
with the assertion error; a consistent one-node state succeeds at index 1. -/
theorem c10_sequential_append_guard_witness :
    createNode ⟨[⟨"node0", 26650, "127.0.0.1"⟩], 2, []⟩
        "cid" "chain-maind" none none "127.0.0.1" = .error .assertionError
    ∧ (1 = [(⟨"node0", 26650, "127.0.0.1"⟩ : ValidatorResolved)].length ∧ 1 = 1) :=
  ⟨c10_sequential_append_guard.1 ⟨[⟨"node0", 26650, "127.0.0.1"⟩], 2, []⟩
      "cid" "chain-maind" none none "127.0.0.1" (by decide) (by decide),
   c10_sequential_append_guard.2 ⟨[⟨"node0", 26650, "127.0.0.1"⟩], 1, []⟩
      "cid" "chain-maind" none none "127.0.0.1" 1
      ⟨[⟨"node0", 26650, "127.0.0.1"⟩, ⟨"node1", 26660, "127.0.0.1"⟩], 2,
        [nodeProgramSection "cid" "chain-maind" 1]⟩ (by rfl)⟩

/-! ### Vesting accounts (cluster.py `init_devnet.create_account` lines 881-909)

Datetimes are represented by their UNIX epoch seconds (the genesis times in
play are whole seconds), and a parsed `durations.Duration` by its seconds;
`int((genesis_time + timedelta(seconds=d)).timestamp())` then becomes
integer addition. -/

/-- An account entry of the declarative input, restricted to the fields the
vesting path reads: coin allocation, optional vesting duration (already
parsed to seconds by the external `durations` library) and optional
vesting-coins subset. -/
structure AccountSpec where
  coins : String
  vesting : Option Nat
  vesting_coins : Option String
deriving Repr, DecidableEq

/-- The `add_genesis_account` invocation an account produces. -/
inductive GenesisAccountCall where
  | plain (address coins : String) : GenesisAccountCall
  | vesting (address coins vestingAmount : String) (vestingEndTime : Int) :
      GenesisAccountCall
deriving Repr, DecidableEq

/-- `init_devnet.create_account`'s funding step (cluster.py lines 892-908):
no vesting key means a plain genesis account; otherwise the vesting end time
is `genesis_time + duration` as a UNIX timestamp and the vesting amount is
`account.get("vesting_coins", account["coins"])`. -/
def createAccountCall (genesisTime : Int) (account : AccountSpec)
    (address : String) : GenesisAccountCall :=
  match account.vesting with
  | none => .plain address account.coins
  | some d =>
      .vesting address account.coins
        (account.vesting_coins.getD account.coins)
        (genesisTime + (d : Int))

/-- C5: for every account with vesting duration `D` (seconds) and genesis
time `T`, the generated genesis-account entry carries vesting end time
`T + D` as an integer UNIX timestamp, and vesting amount `vesting_coins`
when specified, defaulting to the full coin allocation otherwise. -/
theorem c5_vesting_arithmetic (genesisTime : Int) (account : AccountSpec)
    (address : String) (d : Nat) (hd : account.vesting = some d) :
    createAccountCall genesisTime account address
      = .vesting address account.coins
          (account.vesting_coins.getD account.coins) (genesisTime + (d : Int))
    ∧ (account.vesting_coins = none →
        createAccountCall genesisTime account address
          = .vesting address account.coins account.coins (genesisTime + (d : Int)))
    ∧ (∀ vc, account.vesting_coins = some vc →
        createAccountCall genesisTime account address
          = .vesting address account.coins vc (genesisTime + (d : Int))) := by
  refine ⟨?_, ?_, ?_⟩
  · rw [createAccountCall, hd]
  · intro hvc
    rw [createAccountCall, hd, hvc]
    rfl
  · intro vc hvc
    rw [createAccountCall, hd, hvc]
    rfl

/-- C5 witness: `T = 2023-01-01T00:00:00Z` (epoch 1672531200) with
`D = "1h"` (3600 s) yields end time 1672534800; the amount defaults to the
full allocation when no vesting_coins subset is given. -/
theorem c5_vesting_arithmetic_witness :
    createAccountCall 1672531200 ⟨"10000basecro", some 3600, none⟩ "cro1addr"
      = .vesting "cro1addr" "10000basecro" "10000basecro" 1672534800
    ∧ createAccountCall 1672531200
        ⟨"10000basecro", some 3600, some "600basecro"⟩ "cro1addr"
      = .vesting "cro1addr" "10000basecro" "600basecro" 1672534800 :=
  ⟨(c5_vesting_arithmetic 1672531200 ⟨"10000basecro", some 3600, none⟩
      "cro1addr" 3600 rfl).2.1 rfl,
   (c5_vesting_arithmetic 1672531200
      ⟨"10000basecro", some 3600, some "600basecro"⟩
      "cro1addr" 3600 rfl).2.2 "600basecro" rfl⟩

/-! ### Genesis materialization (cluster.py `init_devnet` lines 1040-1046) -/

/-- A node's `config/genesis.json` directory entry: either the symbolic
reference created during assembly or an independent regular file. -/
inductive FileEntry where
  | symlink (target : String) : FileEntry
  | regular (bytes : List Nat) : FileEntry
deriving Repr, DecidableEq

/-- The genesis-relevant slice of the chain's data directory: the chain-level
`genesis.json` bytes and each node's `config/genesis.json` entry
(`none` = no file). -/
structure GenesisFS where
  chainGenesis : List Nat
  nodeGenesis : List (Option FileEntry)
deriving Repr, DecidableEq

/-- `Path.unlink`. -/
def unlinkEntry (_ : Option FileEntry) : Option FileEntry := none

/-- `Path.write_bytes`. -/
def writeBytes (bytes : List Nat) (_ : Option FileEntry) : Option FileEntry :=
  some (.regular bytes)

/-- `Path.symlink_to`. -/
def symlinkTo (target : String) (_ : Option FileEntry) : Option FileEntry :=
  some (.symlink target)

/-- The symlink phase (cluster.py lines 958-961): every node's genesis entry
becomes a symbolic reference to the shared chain-level file. -/
def symlinkGenesis (fs : GenesisFS) : GenesisFS :=
  { fs with nodeGenesis :=
      fs.nodeGenesis.map (fun e => symlinkTo "../../genesis.json" (unlinkEntry e)) }

/-- The materialization loop (cluster.py lines 1040-1046): re-read the
finalized chain-level genesis bytes, then for every node unlink the symbolic
reference and write the bytes as an independent regular file. -/
def materializeGenesis (fs : GenesisFS) : GenesisFS :=
  { fs with nodeGenesis :=
      fs.nodeGenesis.map (fun e => writeBytes fs.chainGenesis (unlinkEntry e)) }

/-- C6: after materialization every node's `config/genesis.json` is a regular
file (never a symbolic reference) holding exactly the finalized chain-level
genesis bytes, hence byte-identical across all node directories. -/
theorem c6_genesis_materialization (fs : GenesisFS) (i j : Nat)
    (hi : i < (materializeGenesis fs).nodeGenesis.length)
    (hj : j < (materializeGenesis fs).nodeGenesis.length) :
    (materializeGenesis fs).nodeGenesis.get ⟨i, hi⟩
        = some (.regular fs.chainGenesis)
    ∧ (∀ target, (materializeGenesis fs).nodeGenesis.get ⟨i, hi⟩
        ≠ some (.symlink target))
    ∧ (materializeGenesis fs).nodeGenesis.get ⟨i, hi⟩
        = (materializeGenesis fs).nodeGenesis.get ⟨j, hj⟩ := by
  have key : ∀ (k : Nat) (hk : k < (materializeGenesis fs).nodeGenesis.length),
      (materializeGenesis fs).nodeGenesis.get ⟨k, hk⟩
        = some (.regular fs.chainGenesis) := by
    intro k hk
    have hk' : k < fs.nodeGenesis.length := by
      simpa [materializeGenesis] using hk
    simp [materializeGenesis, writeBytes, unlinkEntry, List.get_eq_getElem]
  refine ⟨key i hi, ?_, ?_⟩
  · intro target h
    rw [key i hi] at h
    injection h with h
    exact FileEntry.noConfusion h
  · rw [key i hi, key j hj]

/-- C6 witness: a three-node chain whose entries start as symlinks. -/
theorem c6_genesis_materialization_witness :
    (materializeGenesis (symlinkGenesis
        ⟨[123, 10], [some (.regular [1]), some (.regular [2]), some (.regular [3])]⟩)).nodeGenesis.get
      ⟨0, by decide⟩ = some (.regular [123, 10])
    ∧ (∀ target, (materializeGenesis (symlinkGenesis
        ⟨[123, 10], [some (.regular [1]), some (.regular [2]), some (.regular [3])]⟩)).nodeGenesis.get
      ⟨0, by decide⟩ ≠ some (.symlink target))
    ∧ (materializeGenesis (symlinkGenesis
        ⟨[123, 10], [some (.regular [1]), some (.regular [2]), some (.regular [3])]⟩)).nodeGenesis.get
      ⟨0, by decide⟩
      = (materializeGenesis (symlinkGenesis
        ⟨[123, 10], [some (.regular [1]), some (.regular [2]), some (.regular [3])]⟩)).nodeGenesis.get
      ⟨2, by decide⟩ :=
  c6_genesis_materialization
    (symlinkGenesis
      ⟨[123, 10], [some (.regular [1]), some (.regular [2]), some (.regular [3])]⟩)
    0 2 (by decide) (by decide)

/-! ### Consensus-key restoration (cluster.py `init_devnet` lines 926-948)

`hashlib.sha256` and `base64.b64decode` are external collaborators and enter
as function parameters over byte lists; the modelled part is the source's
`hexdigest()[:40].upper()` transformation of the digest. -/

/-- One lower-case hexadecimal digit, as `hexdigest` produces. -/
def hexDigitChar (n : Nat) : Char :=
  if n < 10 then Char.ofNat (48 + n) else Char.ofNat (87 + n)

/-- One upper-case hexadecimal digit. -/
def upperHexDigitChar (n : Nat) : Char :=
  if n < 10 then Char.ofNat (48 + n) else Char.ofNat (55 + n)

/-- Python `hashlib`'s `hexdigest()`: two lower-case hex digits per byte. -/
def hexDigest : List Nat → List Char
  | [] => []
  | b :: rest => hexDigitChar (b / 16 % 16) :: hexDigitChar (b % 16) :: hexDigest rest

/-- The upper-case hexadecimal encoding of a byte list. -/
def upperHexBytes : List Nat → List Char
  | [] => []
  | b :: rest =>
      upperHexDigitChar (b / 16 % 16) :: upperHexDigitChar (b % 16) :: upperHexBytes rest

/-- A pre-supplied consensus keypair from the validator spec (base64-encoded
ed25519 keys, opaque here). -/
structure ConsensusKey where
  pub : String
  priv : String
deriving Repr, DecidableEq

/-- A typed key field of `priv_validator_key.json`. -/
structure KeyField where
  keyType : String
  value : String
deriving Repr, DecidableEq

/-- The content of `priv_validator_key.json`. -/
structure PrivValidatorKey where
  address : List Char
  pub_key : KeyField
  priv_key : KeyField
deriving Repr, DecidableEq

/-- The file `init_devnet` writes over the generated validator key when a
consensus key is pre-supplied (cluster.py lines 926-948): the address is
`sha256(b64decode(pub)).hexdigest()[:40].upper()` and the keypair is carried
over verbatim. -/
def writtenPrivValidatorKey (b64decode : String → List Nat)
    (sha256 : List Nat → List Nat) (ck : ConsensusKey) : PrivValidatorKey :=
  { address := ((hexDigest (sha256 (b64decode ck.pub))).take 40).map Char.toUpper
    pub_key := ⟨"tendermint/PubKeyEd25519", ck.pub⟩
    priv_key := ⟨"tendermint/PrivKeyEd25519", ck.priv⟩ }

theorem toUpper_hexDigitChar (n : Nat) (hn : n < 16) :
    (hexDigitChar n).toUpper = upperHexDigitChar n := by
  interval_cases n <;> decide

/-- Taking `2*n` hex characters of a digest and upper-casing them is the
upper-case hex encoding of the digest's first `n` bytes. -/
theorem take_hexDigest_toUpper (bs : List Nat) :
    ∀ n : Nat, ((hexDigest bs).take (2 * n)).map Char.toUpper
      = upperHexBytes (bs.take n) := by
  induction bs with
  | nil => intro n; simp [hexDigest, upperHexBytes]
  | cons b rest ih =>
    intro n
    cases n with
    | zero => simp [upperHexBytes]
    | succ m =>
      rw [show 2 * (m + 1) = 2 * m + 1 + 1 by omega]
      rw [hexDigest, List.take_succ_cons, List.take_succ_cons, List.map_cons,
        List.map_cons, ih m, List.take_succ_cons, upperHexBytes]
      rw [toUpper_hexDigitChar _ (Nat.mod_lt _ (by omega)),
        toUpper_hexDigitChar _ (Nat.mod_lt _ (by omega))]

/-- C7: for every pre-supplied consensus keypair, the overwritten
`priv_validator_key.json` carries the keypair verbatim and its address field
is the upper-case hexadecimal encoding of the first 20 bytes of the SHA-256
digest of the base64-decoded public key — for any digest function producing
32-byte digests, `hexdigest()[:40].upper()` equals that encoding. -/
theorem c7_consensus_key_address (b64decode : String → List Nat)
    (sha256 : List Nat → List Nat) (ck : ConsensusKey)
    (_hlen : (sha256 (b64decode ck.pub)).length = 32) :
    (writtenPrivValidatorKey b64decode sha256 ck).address
        = upperHexBytes ((sha256 (b64decode ck.pub)).take 20)
    ∧ (writtenPrivValidatorKey b64decode sha256 ck).pub_key
        = ⟨"tendermint/PubKeyEd25519", ck.pub⟩
    ∧ (writtenPrivValidatorKey b64decode sha256 ck).priv_key
        = ⟨"tendermint/PrivKeyEd25519", ck.priv⟩ := by
  refine ⟨?_, rfl, rfl⟩
  rw [writtenPrivValidatorKey]
  exact take_hexDigest_toUpper (sha256 (b64decode ck.pub)) 20

/-- C7 witness: a concrete 32-byte digest function. -/
theorem c7_consensus_key_address_witness :
    (writtenPrivValidatorKey (fun _ => [0])
        (fun _ => (List.range 32).map (fun k => k * 8)) ⟨"cHVi", "cHJpdg=="⟩).address
      = upperHexBytes ((((List.range 32).map (fun k => k * 8))).take 20)
    ∧ (writtenPrivValidatorKey (fun _ => [0])
        (fun _ => (List.range 32).map (fun k => k * 8)) ⟨"cHVi", "cHJpdg=="⟩).pub_key
      = ⟨"tendermint/PubKeyEd25519", "cHVi"⟩
    ∧ (writtenPrivValidatorKey (fun _ => [0])
        (fun _ => (List.range 32).map (fun k => k * 8)) ⟨"cHVi", "cHJpdg=="⟩).priv_key
      = ⟨"tendermint/PrivKeyEd25519", "cHJpdg=="⟩ :=
  c7_consensus_key_address (fun _ => [0])
    (fun _ => (List.range 32).map (fun k => k * 8)) ⟨"cHVi", "cHJpdg=="⟩ (by decide)

/-! ### Genesis validation gating (cluster.py `init_devnet` lines 1075-1079,
utils.py `interact` lines 6-20) -/

/-- `utils.interact`: the captured output on exit code zero, an
`AssertionError` carrying the output otherwise — unless `ignore_error`. -/
def interactResult (returncode : Nat) (stdout : String) (ignoreError : Bool) :
    Except String String :=
  if ¬ignoreError ∧ returncode ≠ 0 then .error stdout else .ok stdout

/-- The end of `init_devnet` (cluster.py lines 1075-1079): read
`statesync.enable` from node0's network config; unless it is set, run the
external binary's `validate-genesis` (through `interact` with
`ignore_error = False`).  Returns whether validation ran, paired with its
outcome (`ok ""` when skipped). -/
def genesisValidationGate (statesyncEnable : Bool)
    (validateReturncode : Nat) (validateOutput : String) :
    Bool × Except String String :=
  if statesyncEnable then (false, .ok "")
  else (true, interactResult validateReturncode validateOutput false)

/-- C8: the genesis document is validated via the external binary exactly
when the first validator's network config does not enable statesync, and a
non-zero exit of the validation command is a fatal error (an `AssertionError`
from `interact`), while a zero exit succeeds. -/
theorem c8_statesync_validation_gate (statesyncEnable : Bool)
    (rc : Nat) (out : String) :
    (genesisValidationGate statesyncEnable rc out).1 = !statesyncEnable
    ∧ ((genesisValidationGate statesyncEnable rc out).2 = .error out
        ↔ statesyncEnable = false ∧ rc ≠ 0)
    ∧ (statesyncEnable = false → rc = 0 →
        (genesisValidationGate statesyncEnable rc out).2 = .ok out) := by
  cases statesyncEnable with
  | false =>
    refine ⟨rfl, ?_, ?_⟩
    · by_cases hrc : rc = 0
      · subst hrc
        simp [genesisValidationGate, interactResult]
      · simp [genesisValidationGate, interactResult, hrc]
    · intro _ hrc
      subst hrc
      simp [genesisValidationGate, interactResult]
  | true =>
    refine ⟨rfl, ?_, ?_⟩
    · simp [genesisValidationGate]
    · intro h
      exact absurd h (by simp)

/-! ### Multi-chain relayer gating (cluster.py `init_cluster` lines 1193-1269,
`supervisord_ini_group` lines 1329-1361, `relayer_chain_config_hermes` lines
1107-1139, `relayer_chain_config_rly` lines 1142-1185)

Ports are derived by the external `ports` module from the chain's first
validator's base port, so each chain arrives with its derived ports already
resolved. -/

/-- The per-chain data `init_cluster`'s relayer wiring reads: the chain id
and the first validator's derived ports, plus the chain's account prefix and
coin type (with their `chain.get(...)` defaults already applied). -/
structure ChainMeta where
  chainId : String
  rpcPort : Nat
  grpcPort : Nat
  evmrpcPort : Nat
  accountPrefix : String
  coinType : Nat
deriving Repr, DecidableEq

/-- `i["id"] == chain_id` for one entry of `relayer.chains` (an entry without
an `"id"` key raises `KeyError` in Python; the model treats it as a
non-match, and the claims only involve entries carrying an id). -/
def hasId (chainId : String) (d : Val) : Bool :=
  match lookupVal d "id" with
  | some (.vstr s) => s == chainId
  | _ => false

/-- `get_relayer_chain_config` (cluster.py lines 1103-1104): the first
override entry whose id matches, else an empty document. -/
def getRelayerChainConfig (overrides : List Val) (chainId : String) : Val :=
  (overrides.find? (hasId chainId)).getD (.vobj [])

/-- `chain_config.get(k, default)` on a document. -/
def lookupValD (v : Val) (k : String) (d : Val) : Val :=
  (lookupVal v k).getD d

/-- `relayer_chain_config_hermes` (cluster.py lines 1107-1139): the base
chain document — with the legacy `websocket_addr` field below hermes 1.6.0
and the `event_source` document from 1.6.0 on — deep-merged with the
matching user override. -/
def relayerChainConfigHermes (c : ChainMeta) (overrides : List Val)
    (legacy : Bool) : Val :=
  mergeVal
    (.vobj
      ([("key_name", .vstr "relayer"),
        ("id", .vstr c.chainId),
        ("rpc_addr", .vstr ("http://127.0.0.1:" ++ toString c.rpcPort)),
        ("grpc_addr", .vstr ("http://127.0.0.1:" ++ toString c.grpcPort)),
        ("rpc_timeout", .vstr "10s"),
        ("account_prefix", .vstr c.accountPrefix),
        ("store_prefix", .vstr "ibc"),
        ("max_gas", .vint 300000),
        ("gas_price", .vobj [("price", .vint 0), ("denom", .vstr "basecro")]),
        ("trusting_period", .vstr "336h")]
       ++ (if legacy then
            [("websocket_addr",
              .vstr ("ws://localhost:" ++ toString c.rpcPort ++ "/websocket"))]
          else
            [("event_source", .vobj
              [("mode", .vstr "push"),
               ("url", .vstr ("ws://127.0.0.1:" ++ toString c.rpcPort ++ "/websocket")),
               ("batch_delay", .vstr "200ms")])])))
    (getRelayerChainConfig overrides c.chainId)

/-- `f"{price}{denom}"` from the override's `gas_price` document (defaults
`0` and `"basecro"`). -/
def rlyGasPrices (chainConfig : Val) : String :=
  let gp := lookupValD chainConfig "gas_price" (.vobj [])
  let price : Int :=
    match lookupVal gp "price" with
    | some (.vint n) => n
    | _ => 0
  let denom : String :=
    match lookupVal gp "denom" with
    | some (.vstr s) => s
    | _ => "basecro"
  toString price ++ denom

/-- `[derivation] if derivation else []` from the override's
`address_type.derivation`. -/
def rlyExtraCodecs (chainConfig : Val) : List Val :=
  match lookupVal (lookupValD chainConfig "address_type" (.vobj [])) "derivation" with
  | some d => [d]
  | none => []

/-- `relayer_chain_config_rly` (cluster.py lines 1142-1185).  The float
default `1.2` of `gas-adjustment` is carried as its literal text, floating
point being outside the embedding. -/
def relayerChainConfigRly (dataDir : String) (c : ChainMeta)
    (overrides : List Val) : Val :=
  let cc := getRelayerChainConfig overrides c.chainId
  .vobj
    [("type", .vstr "cosmos"),
     ("value", .vobj
       [("key-directory", .vstr (dataDir ++ "/" ++ c.chainId ++ "/node0")),
        ("key", .vstr "relayer"),
        ("chain-id", .vstr c.chainId),
        ("rpc-addr", .vstr ("http://127.0.0.1:" ++ toString c.rpcPort)),
        ("json-rpc-addr", .vstr ("http://127.0.0.1:" ++ toString c.evmrpcPort)),
        ("account-prefix", .vstr c.accountPrefix),
        ("keyring-backend", lookupValD cc "keyring-backend" (.vstr "test")),
        ("gas-adjustment", lookupValD cc "gas_multiplier" (.vstr "1.2")),
        ("feegrants", lookupValD cc "feegrants" .vnull),
        ("gas-prices", .vstr (rlyGasPrices cc)),
        ("extension-options", lookupValD cc "extension_options" (.varr [])),
        ("min-gas-amount", .vint 0),
        ("max-gas-amount", lookupValD cc "max_gas" (.vint 300000)),
        ("debug", lookupValD cc "debug" (.vbool false)),
        ("timeout", lookupValD cc "timeout" (.vstr "20s")),
        ("block-timeout", .vstr ""),
        ("output-format", .vstr "json"),
        ("sign-mode", .vstr "direct"),
        ("extra-codecs", .varr (rlyExtraCodecs cc)),
        ("coin-type", .vint c.coinType),
        ("precompiled-contract-address",
          lookupValD cc "precompiled_contract_address" (.vstr "")),
        ("signing-algorithm", .vstr ""),
        ("broadcast-mode", .vstr "batch"),
        ("min-loop-duration", .vstr "0s")])]

/-- The relayer process command line, by relayer implementation. -/
def relayerDemoCommand (isHermes : Bool) : String :=
  if isHermes then "hermes --config relayer.toml start"
  else "rly start chainmain-cronos --home relayer"

/-- `supervisord_ini_group` (cluster.py lines 1329-1361): the umbrella
supervisor config — include list over every chain's tasks file, the daemon
and control sections, and one `program:relayer-demo` section, not
auto-started. -/
def supervisordIniGroup (chainIds : List String) (isHermes : Bool) :
    List IniSection :=
  [("include",
    [("files", String.intercalate " "
        (chainIds.map (fun cid => "%(here)s/" ++ cid ++ "/tasks.ini")))]),
   ("supervisord",
    [("pidfile", "%(here)s/supervisord.pid"),
     ("nodaemon", "true"),
     ("logfile", "/dev/null"),
     ("logfile_maxbytes", "0"),
     ("strip_ansi", "true")]),
   ("rpcinterface:supervisor",
    [("supervisor.rpcinterface_factory",
      "supervisor.rpcinterface:make_main_rpcinterface")]),
   ("unix_http_server", [("file", "%(here)s/supervisor.sock")]),
   ("supervisorctl", [("serverurl", "unix://%(here)s/supervisor.sock")]),
   ("program:relayer-demo",
    [("autostart", "false"),
     ("autorestart", "true"),
     ("redirect_stderr", "true"),
     ("startsecs", "3"),
     ("directory", "%(here)s"),
     ("command", relayerDemoCommand isHermes),
     ("stdout_logfile", "%(here)s/relayer-demo.log")])]

/-- The relayer config document `init_cluster` writes: `relayer.toml` for
hermes, `relayer/config/config.yaml` for rly. -/
inductive RelayerArtifact where
  | hermes (doc : Val) : RelayerArtifact
  | rly (doc : Val) : RelayerArtifact
deriving Repr

/-- `relayer_config.pop("chains", {})`: the per-chain override list. -/
def chainOverridesOf (relayerConfig : List (String × Val)) : List Val :=
  match lookupKey relayerConfig "chains" with
  | some (.varr l) => l
  | _ => []

/-- The relayer section after the `"chains"` key has been popped. -/
def relayerRestOf (relayerConfig : List (String × Val)) : List (String × Val) :=
  relayerConfig.filter (fun kv => kv.1 != "chains")

/-- The hermes `relayer.toml` document (cluster.py lines 1229-1246): default
global section plus the per-chain documents, deep-merged with the remaining
user relayer overrides. -/
def hermesRelayerDoc (chains : List ChainMeta) (chainOverrides : List Val)
    (legacy : Bool) (relayerRest : List (String × Val)) : Val :=
  mergeVal
    (.vobj
      [("global", .vobj [("log_level", .vstr "info")]),
       ("chains", .varr
         (chains.map (fun c => relayerChainConfigHermes c chainOverrides legacy)))])
    (.vobj relayerRest)

/-- `relayer_config.get("global", {}).get("log_level", "")`. -/
def rlyLogLevel (relayerConfig : List (String × Val)) : String :=
  match lookupKey relayerConfig "global" with
  | some g =>
    match lookupVal g "log_level" with
    | some (.vstr s) => s
    | _ => ""
  | none => ""

/-- The rly `relayer/config/config.yaml` document (cluster.py lines
1248-1269): a fixed global section and the chains mapping keyed by chain
id. -/
def rlyRelayerDoc (dataDir : String) (chains : List ChainMeta)
    (chainOverrides : List Val) (logLevel : String) : Val :=
  .vobj
    [("global", .vobj
      [("api-listen-addr", .vstr ":5183"),
       ("timeout", .vstr "10s"),
       ("memo", .vstr ""),
       ("light-cache-size", .vint 20),
       ("log-level", .vstr logLevel)]),
     ("chains", .vobj
       (chains.map (fun c =>
         (c.chainId, relayerChainConfigRly dataDir c chainOverrides))))]

/-- The artifacts `init_cluster` (cluster.py lines 1193-1269) produces at the
data-directory level: the umbrella supervisor config (always), and the
relayer config document exactly when more than one chain is configured. -/
def initClusterArtifacts (dataDir : String) (chains : List ChainMeta)
    (isHermes legacyHermes : Bool) (relayerConfig : List (String × Val)) :
    List IniSection × Option RelayerArtifact :=
  (supervisordIniGroup (chains.map (fun c => c.chainId)) isHermes,
   if chains.length > 1 then
     some (if isHermes then
        .hermes (hermesRelayerDoc chains (chainOverridesOf relayerConfig)
          legacyHermes (relayerRestOf relayerConfig))
      else
        .rly (rlyRelayerDoc dataDir chains (chainOverridesOf relayerConfig)
          (rlyLogLevel relayerConfig)))
   else none)

/-- The chain ids a relayer config document references: the `id` fields of
the hermes `chains` array, or the keys of the rly `chains` mapping. -/
def relayerArtifactChainIds : RelayerArtifact → List String
  | .hermes doc =>
    match lookupVal doc "chains" with
    | some (.varr l) =>
      l.filterMap (fun d =>
        match lookupVal d "id" with
        | some (.vstr s) => some s
        | _ => none)
    | _ => []
  | .rly doc =>
    match lookupVal doc "chains" with
    | some (.vobj kvs) => kvs.map Prod.fst
    | _ => []

/-- An override entry is well-formed when, if it is an object, its keys are
free of duplicates (true of every document parsed from YAML/jsonnet). -/
def objKeysNodup (v : Val) : Prop :=
  match v with
  | .vobj l => (keysOf l).Nodup
  | _ => True

theorem relayerChainConfigHermes_id (c : ChainMeta) (overrides : List Val)
    (legacy : Bool) (hov : ∀ o ∈ overrides, objKeysNodup o) :
    lookupVal (relayerChainConfigHermes c overrides legacy) "id"
      = some (.vstr c.chainId) := by
  rw [relayerChainConfigHermes, getRelayerChainConfig]
  cases hf : overrides.find? (hasId c.chainId) with
  | none =>
    cases legacy <;>
      simp [mergeVal, mergeList_nil_right, lookupVal, lookupKey_cons]
  | some ov =>
    have hp : hasId c.chainId ov = true := List.find?_some hf
    have hmem : ov ∈ overrides := List.mem_of_find?_eq_some hf
    rw [hasId] at hp
    cases hov' : lookupVal ov "id" with
    | none => rw [hov'] at hp; simp at hp
    | some idv =>
      rw [hov'] at hp
      cases idv with
      | vstr s =>
        have hs : s = c.chainId := by simpa using hp
        subst hs
        cases ov with
        | vobj okvs =>
          rw [lookupVal] at hov'
          have hnd : (keysOf okvs).Nodup := by
            have := hov _ hmem
            simpa [objKeysNodup] using this
          simp only [Option.getD_some, mergeVal, lookupVal]
          rw [mergeList_key okvs _ "id" (.vstr c.chainId) hnd hov']
          have hbase : lookupKey
              ([("key_name", .vstr "relayer"),
                ("id", .vstr c.chainId),
                ("rpc_addr", .vstr ("http://127.0.0.1:" ++ toString c.rpcPort)),
                ("grpc_addr", .vstr ("http://127.0.0.1:" ++ toString c.grpcPort)),
                ("rpc_timeout", .vstr "10s"),
                ("account_prefix", .vstr c.accountPrefix),
                ("store_prefix", .vstr "ibc"),
                ("max_gas", .vint 300000),
                ("gas_price", .vobj [("price", .vint 0), ("denom", .vstr "basecro")]),
                ("trusting_period", .vstr "336h")]
               ++ (if legacy then
                    [("websocket_addr",
                      .vstr ("ws://localhost:" ++ toString c.rpcPort ++ "/websocket"))]
                  else
                    [("event_source", .vobj
                      [("mode", .vstr "push"),
                       ("url", .vstr ("ws://127.0.0.1:" ++ toString c.rpcPort ++ "/websocket")),
                       ("batch_delay", .vstr "200ms")])])) "id"
              = some (.vstr c.chainId) := by
            cases legacy <;> simp [lookupKey_cons]
          rw [hbase]
          rfl
        | vnull => simp [lookupVal] at hov'
        | vbool b => simp [lookupVal] at hov'
        | vint n => simp [lookupVal] at hov'
        | vstr s2 => simp [lookupVal] at hov'
        | varr l => simp [lookupVal] at hov'
      | vnull => simp at hp
      | vbool b => simp at hp
      | vint n => simp at hp
      | vobj l => simp at hp
      | varr l => simp at hp

theorem hermesRelayerDoc_chains (chains : List ChainMeta)
    (chainOverrides : List Val) (legacy : Bool)
    (relayerConfig : List (String × Val)) :
    lookupVal (hermesRelayerDoc chains chainOverrides legacy
        (relayerRestOf relayerConfig)) "chains"
      = some (.varr
          (chains.map (fun c => relayerChainConfigHermes c chainOverrides legacy))) := by
  rw [hermesRelayerDoc]
  simp only [mergeVal, lookupVal]
  rw [mergeList_frame (relayerRestOf relayerConfig) _ "chains"
    (fun kv hkv => by
      have := List.of_mem_filter hkv
      simpa using this)]
  simp [lookupKey_cons]

theorem filterMap_ids (g : Val → Option String) (f : ChainMeta → Val)
    (hg : ∀ c : ChainMeta, g (f c) = some c.chainId) :
    ∀ chains : List ChainMeta,
      (chains.map f).filterMap g = chains.map (fun c => c.chainId)
  | [] => rfl
  | c :: rest => by
    simp only [List.map_cons, List.filterMap_cons, hg c]
    rw [filterMap_ids g f hg rest]

/-- C3: a single-chain config produces no relayer configuration document; a
two-chain config produces exactly one relayer config document, referencing
both chain ids, and the generated supervision config contains exactly one
relayer process definition. -/
theorem c3_multichain_relayer_gating (dataDir : String)
    (chains : List ChainMeta) (isHermes legacyHermes : Bool)
    (relayerConfig : List (String × Val))
    (hov : ∀ o ∈ chainOverridesOf relayerConfig, objKeysNodup o) :
    (chains.length = 1 →
      (initClusterArtifacts dataDir chains isHermes legacyHermes relayerConfig).2
        = none)
    ∧ (chains.length = 2 →
      ∃ art,
        (initClusterArtifacts dataDir chains isHermes legacyHermes relayerConfig).2
          = some art
        ∧ relayerArtifactChainIds art = chains.map (fun c => c.chainId)
        ∧ (((initClusterArtifacts dataDir chains isHermes legacyHermes
              relayerConfig).1.map Prod.fst).count "program:relayer-demo" = 1)) := by
  constructor
  · intro h1
    simp [initClusterArtifacts, h1]
  · intro h2
    have hcount : ((initClusterArtifacts dataDir chains isHermes legacyHermes
        relayerConfig).1.map Prod.fst).count "program:relayer-demo" = 1 := by
      simp only [initClusterArtifacts, supervisordIniGroup, List.map_cons,
        List.map_nil]
      rw [List.count_cons, List.count_cons, List.count_cons, List.count_cons,
        List.count_cons, List.count_cons, List.count_nil]
      simp
    cases isHermes with
    | true =>
      refine ⟨.hermes (hermesRelayerDoc chains (chainOverridesOf relayerConfig)
          legacyHermes (relayerRestOf relayerConfig)), ?_, ?_, hcount⟩
      · simp [initClusterArtifacts, h2]
      · rw [relayerArtifactChainIds,
          hermesRelayerDoc_chains chains (chainOverridesOf relayerConfig)
            legacyHermes relayerConfig]
        exact filterMap_ids _ _
          (fun c => by
            rw [show (match lookupVal (relayerChainConfigHermes c
                  (chainOverridesOf relayerConfig) legacyHermes) "id" with
                | some (.vstr s) => some s
                | _ => none)
              = some c.chainId from by
              rw [relayerChainConfigHermes_id c _ legacyHermes hov]])
          chains
    | false =>
      refine ⟨.rly (rlyRelayerDoc dataDir chains (chainOverridesOf relayerConfig)
          (rlyLogLevel relayerConfig)), ?_, ?_, hcount⟩
      · simp [initClusterArtifacts, h2]
      · rw [relayerArtifactChainIds, rlyRelayerDoc]
        simp [lookupVal, lookupKey_cons, List.map_map, Function.comp]

/-- C3 witness: one chain versus two concrete chains under the default
(hermes) relayer with no overrides. -/
theorem c3_multichain_relayer_gating_witness :
    ((initClusterArtifacts "data" [⟨"ibc-0", 26657, 26652, 26654, "cro", 394⟩]
        true false []).2 = none)
    ∧ (∃ art,
        (initClusterArtifacts "data"
          [⟨"ibc-0", 26657, 26652, 26654, "cro", 394⟩,
           ⟨"ibc-1", 26757, 26752, 26754, "cro", 394⟩]
          true false []).2 = some art
        ∧ relayerArtifactChainIds art
            = [⟨"ibc-0", 26657, 26652, 26654, "cro", 394⟩,
               (⟨"ibc-1", 26757, 26752, 26754, "cro", 394⟩ : ChainMeta)].map
                (fun c => c.chainId)
        ∧ (((initClusterArtifacts "data"
              [⟨"ibc-0", 26657, 26652, 26654, "cro", 394⟩,
               ⟨"ibc-1", 26757, 26752, 26754, "cro", 394⟩]
              true false []).1.map Prod.fst).count "program:relayer-demo" = 1)) :=
  ⟨(c3_multichain_relayer_gating "data"
      [⟨"ibc-0", 26657, 26652, 26654, "cro", 394⟩] true false []
      (by intro o ho; simp [chainOverridesOf, lookupKey] at ho)).1 rfl,
   (c3_multichain_relayer_gating "data"
      [⟨"ibc-0", 26657, 26652, 26654, "cro", 394⟩,
       ⟨"ibc-1", 26757, 26752, 26754, "cro", 394⟩] true false []
      (by intro o ho; simp [chainOverridesOf, lookupKey] at ho)).2 rfl⟩

end Pystarport
